import Mathlib

/-!
Verification of the cluster-ring topology layer (package `topology`).

The Go source keeps a sparse, index-addressed registry `nodes []Node` inside
`ClusterRing`; a slot may be `nil` (absent) or hold a `Node` value.  We embed
the registry as `List (Option NodeV)` with `none` for a `nil` slot.  Go `int`
values (slot ids, sizes) are embedded as `Int`; loop counters that Go keeps
non-negative are `Nat`.  Functions that can panic in Go (negative slice index)
return `Option`, with `none` marking the panic.
-/

/-- The part of a ring member visible to the ring: its slot id (`GetId`) and
its client-facing address (`GetAddress`).  Mirrors the `node` struct fields
used by `ClusterRing` (`id`, `store.Address`). -/
structure NodeV where
  id : Int
  address : String
deriving DecidableEq, Repr

/-- Modelled from the spec: the `AccessOption` type is declared outside the
provided sources; per the spec it is a pure function
`(logicalIndex, ringSize) -> (adjustedIndex, replicaOffset)`, matching its
call site `index, replica = option(index, clusterSize)` in `GetNode`. -/
def AccessOption : Type := Int → Int → Int × Int

/-- The `ClusterRing` struct: keyspace and data-center tags, the sparse node
registry, and the three sizing fields. -/
structure ClusterRing where
  keyspace : String
  dataCenter : String
  nodes : List (Option NodeV)
  expectedSize : Int
  nextSize : Int
  replicationFactor : Int
deriving DecidableEq

/-- A registry slot is occupied iff it holds a node whose address is
non-empty: the test `n == nil || n.GetAddress() == ""` negated. -/
def occupied (s : Option NodeV) : Bool :=
  match s with
  | none => false
  | some n => n.address ≠ ""

/-- Slot `i` of the registry, `none` when the slice is shorter than `i+1`. -/
def ClusterRing.slot (c : ClusterRing) (i : Nat) : Option NodeV :=
  c.nodes.getD i none

/-- `ClusterRing.Add`: grow the registry to length `id+1` when it is shorter
(`make` + `copy`, new slots `nil`), then write the node at its own id.
`cluster.nodes[n.GetId()] = n` panics in Go when the id is negative (the
grow branch never fires since `len >= 0 > id+1-1`), hence the `Option`. -/
def ClusterRing.Add (c : ClusterRing) (n : NodeV) : Option ClusterRing :=
  if 0 ≤ n.id then
    let id := n.id.toNat
    let grown :=
      if c.nodes.length < id + 1 then
        c.nodes ++ List.replicate (id + 1 - c.nodes.length) none
      else c.nodes
    some { c with nodes := grown.set id (some n) }
  else none

/-- `ClusterRing.Remove`: when `nodeId < len(nodes)` read the slot, clear it
and return the previous occupant; otherwise return `nil` untouched.  The Go
guard does not exclude negative ids, so `nodes[nodeId]` panics there
(modelled as the outer `none`). -/
def ClusterRing.Remove (c : ClusterRing) (nodeId : Int) :
    Option (Option NodeV × ClusterRing) :=
  if nodeId < (c.nodes.length : Int) then
    if 0 ≤ nodeId then
      some (c.slot nodeId.toNat, { c with nodes := c.nodes.set nodeId.toNat none })
    else none
  else some (none, c)

/-- `ClusterRing.ExpectedSize` accessor. -/
def ClusterRing.ExpectedSize (c : ClusterRing) : Int := c.expectedSize

/-- `ClusterRing.NextSize` accessor. -/
def ClusterRing.NextSize (c : ClusterRing) : Int := c.nextSize

/-- `ClusterRing.ReplicationFactor` accessor. -/
def ClusterRing.ReplicationFactor (c : ClusterRing) : Int := c.replicationFactor

/-- `ClusterRing.SetExpectedSize`: stores only positive values. -/
def ClusterRing.SetExpectedSize (c : ClusterRing) (expectedSize : Int) : ClusterRing :=
  if 0 < expectedSize then { c with expectedSize := expectedSize } else c

/-- `ClusterRing.SetNextSize`: stores any value, no guard. -/
def ClusterRing.SetNextSize (c : ClusterRing) (nextSize : Int) : ClusterRing :=
  { c with nextSize := nextSize }

/-- `ClusterRing.SetReplicationFactor`: stores only positive values. -/
def ClusterRing.SetReplicationFactor (c : ClusterRing) (replicationFactor : Int) : ClusterRing :=
  if 0 < replicationFactor then { c with replicationFactor := replicationFactor } else c

/-- The loop of `CurrentSize`: `for i := len(nodes); i > 0; i--`, returning
the first `i` whose slot `i-1` is occupied, else `0`. -/
def currentSizeFrom (nodes : List (Option NodeV)) : Nat → Nat
  | 0 => 0
  | i + 1 => if occupied (nodes.getD i none) then i + 1 else currentSizeFrom nodes i

/-- `ClusterRing.CurrentSize`: one plus the highest occupied slot index,
`0` when no slot is occupied. -/
def ClusterRing.CurrentSize (c : ClusterRing) : Nat :=
  currentSizeFrom c.nodes c.nodes.length

/-- The option loop of `GetNode`: `replica := 0;
for _, option := range options { index, replica = option(index, clusterSize) }`. -/
def applyOptions (options : List AccessOption) (index : Int) (clusterSize : Int) :
    Int × Int :=
  options.foldl (fun p opt => opt p.1 clusterSize) (index, 0)

/-- `ClusterRing.GetNode`: apply the options with `clusterSize = len(nodes)`,
then return not-found when the final index is out of range or the slot is
`nil`, else the slot's node, the final replica, and `true`. -/
def ClusterRing.GetNode (c : ClusterRing) (index : Int) (options : List AccessOption) :
    Option NodeV × Int × Bool :=
  let clusterSize : Int := c.nodes.length
  let p := applyOptions options index clusterSize
  if p.1 < 0 ∨ clusterSize ≤ p.1 then (none, 0, false)
  else
    match c.slot p.1.toNat with
    | none => (none, 0, false)
    | some n => (some n, p.2, true)

/-- `ClusterRing.MissingAndFreeNodeIds`: over `[0, max(len(nodes),
CurrentSize()))`, unoccupied indices below `CurrentSize()` are missing and
occupied indices at or above it are free, each in increasing order. -/
def ClusterRing.MissingAndFreeNodeIds (c : ClusterRing) : List Nat × List Nat :=
  let currentClusterSize := c.CurrentSize
  let mx := max c.nodes.length currentClusterSize
  ((List.range mx).filter fun i => !occupied (c.slot i) && decide (i < currentClusterSize),
   (List.range mx).filter fun i => occupied (c.slot i) && decide (currentClusterSize ≤ i))

/-- `NewHashRing`: empty registry, `nextSize` zero. -/
def NewHashRing (keyspace dataCenter : String) (expectedSize replicationFactor : Int) :
    ClusterRing :=
  { keyspace := keyspace
    dataCenter := dataCenter
    nodes := []
    expectedSize := expectedSize
    nextSize := 0
    replicationFactor := replicationFactor }

/-- Go's `fmt.Sprintf("%v", xs)` on an `[]int`: bracketed, space-separated. -/
def goIntListRepr (xs : List Nat) : String :=
  "[" ++ String.intercalate " " (xs.map toString) ++ "]"

/-- One position of the slot display loop in `ClusterRing.String`: an
occupied slot prints the node's own id, an unoccupied one prints `_` only
below `expectedSize` or below `CurrentSize()`, each prefixed by a space
except at position zero. -/
def slotPiece (c : ClusterRing) (nodeCount : Nat) (i : Nat) : String :=
  let sep := if i ≠ 0 then " " else ""
  match c.slot i with
  | some n =>
      if n.address = "" then
        if (i : Int) < c.expectedSize ∨ i < nodeCount then sep ++ "_" else ""
      else sep ++ toString n.id
  | none =>
      if (i : Int) < c.expectedSize ∨ i < nodeCount then sep ++ "_" else ""

/-- The ` size ...` annotation of `ClusterRing.String`: `N=>M` during an
active resize (`nextSize` non-zero), `N->M` when current and expected size
differ with `expectedSize` non-zero, plain `N` otherwise; Go's format
strings carry a trailing blank. -/
def sizeSuffix (c : ClusterRing) : String :=
  if c.nextSize = 0 then
    if (c.CurrentSize : Int) ≠ c.expectedSize ∧ c.expectedSize ≠ 0 then
      " size " ++ toString c.CurrentSize ++ "->" ++ toString c.expectedSize ++ " "
    else
      " size " ++ toString c.CurrentSize ++ " "
  else
    " size " ++ toString c.CurrentSize ++ "=>" ++ toString c.nextSize ++ " "

/-- The trailing `(N missing [...], M free [...])` section of
`ClusterRing.String`; empty when both lists are empty. -/
def missingFreeSuffix (c : ClusterRing) : String :=
  let p := c.MissingAndFreeNodeIds
  if p.1.length > 0 ∨ p.2.length > 0 then
    "(" ++
    (if p.1.length > 0 then
      toString p.1.length ++ " missing " ++ goIntListRepr p.1 else "") ++
    (if p.2.length > 0 then
      (if p.1.length > 0 then ", " else "") ++
      toString p.2.length ++ " free " ++ goIntListRepr p.2 else "") ++
    ")"
  else ""

/-- `ClusterRing.String`: the bracketed slot display over
`[0, max(len(nodes), expectedSize))`, then the size annotation, then the
missing/free section. -/
def ClusterRing.String (c : ClusterRing) : String :=
  let nodeCount := c.CurrentSize
  let mx := if (c.nodes.length : Int) < c.expectedSize then c.expectedSize.toNat
            else c.nodes.length
  "[" ++ ((List.range mx).map (slotPiece c nodeCount)).foldl (· ++ ·) "" ++ "]" ++
  sizeSuffix c ++ missingFreeSuffix c

/-- Modelled from the spec: the jump-consistent-hash function `jump.Hash`
(third-party `github.com/dgryski/go-jump`, not among the sources).  Per the
spec it deterministically maps a 64-bit key hash and a bucket count to a
bucket in `[0, count)` for `count > 0`.  We embed the published algorithm
with exact integer arithmetic (the library rounds through `float64` and
narrows through `int32`; the spec's contract is stated over exact values):
`b = -1; j = 0; while j < n { b = j; key = key*2862933555777941757 + 1
(mod 2^64); j = floor((b+1) * 2^31 / ((key >> 33) + 1)) }; return b`.
`fuel` bounds the loop; each pass raises `j` by at least one, so
`numBuckets.toNat + 1` passes always reach the exit condition. -/
def jumpLoop (numBuckets : Int) : Nat → Int → Int → Nat → Int
  | 0, b, _, _ => b
  | fuel + 1, b, j, key =>
      if j < numBuckets then
        let key' := (key * 2862933555777941757 + 1) % 2 ^ 64
        let j' : Int := ((j + 1) * 2 ^ 31) / ((key' / 2 ^ 33 : Nat) + 1 : Nat)
        jumpLoop numBuckets fuel j j' key'
      else b

/-- Modelled from the spec: entry point of the jump hash (see `jumpLoop`). -/
def jumpHash (key : Nat) (numBuckets : Int) : Int :=
  jumpLoop numBuckets (numBuckets.toNat + 1) (-1) 0 key

/-- `ClusterRing.FindBucketGivenSize`: the jump hash at an explicit size. -/
def ClusterRing.FindBucketGivenSize (_c : ClusterRing) (keyHash : Nat) (size : Int) : Int :=
  jumpHash keyHash size

/-- `ClusterRing.FindBucket`: the jump hash at `cluster.ExpectedSize()`. -/
def ClusterRing.FindBucket (c : ClusterRing) (keyHash : Nat) : Int :=
  jumpHash keyHash c.ExpectedSize

/-- Follows the wording of the spec for `GetNode` (claim C2): apply each
access-strategy option in sequence to `(index, replicaOffset)`, seeded with
`replicaOffset = 0` and the registry's slot count as the size context; after
transformation, not-found when the final index is outside `[0, len)` or the
slot is absent, else the node at the final index, the final replica offset,
and `true`. -/
def getNodeSpec (c : ClusterRing) (index : Int) (options : List AccessOption) :
    Option NodeV × Int × Bool :=
  let final := options.foldl (fun p opt => opt p.1 (c.nodes.length : Int)) (index, 0)
  if 0 ≤ final.1 ∧ final.1 < (c.nodes.length : Int) then
    match c.slot final.1.toNat with
    | some n => (some n, final.2, true)
    | none => (none, 0, false)
  else (none, 0, false)

/-- Ring states reachable through the exported constructors and membership
mutations: `NewHashRing`, a succeeding `Add`, a succeeding `Remove`. -/
inductive Reachable : ClusterRing → Prop
  | new (keyspace dataCenter : String) (expectedSize replicationFactor : Int) :
      Reachable (NewHashRing keyspace dataCenter expectedSize replicationFactor)
  | add (c c' : ClusterRing) (n : NodeV) :
      Reachable c → c.Add n = some c' → Reachable c'
  | remove (c c' : ClusterRing) (nodeId : Int) (prev : Option NodeV) :
      Reachable c → c.Remove nodeId = some (prev, c') → Reachable c'

/-! ### Helper lemmas -/

lemma getD_set_self {α : Type} (l : List α) (i : Nat) (a d : α) (h : i < l.length) :
    (l.set i a).getD i d = a := by
  rw [List.getD_eq_getElem?_getD, List.getElem?_set_self (by simpa using h)]
  rfl

lemma getD_set_ne {α : Type} (l : List α) (i j : Nat) (a d : α) (h : i ≠ j) :
    (l.set i a).getD j d = l.getD j d := by
  simp [List.getD_eq_getElem?_getD, List.getElem?_set_ne h]

lemma getD_append_replicate {α : Type} (l : List α) (k : Nat) (d : α) (j : Nat) :
    (l ++ List.replicate k d).getD j d = l.getD j d := by
  rcases Nat.lt_or_ge j l.length with hj | hj
  · rw [List.getD_eq_getElem?_getD, List.getElem?_append_left hj,
      ← List.getD_eq_getElem?_getD]
  · rw [List.getD_eq_default _ _ hj, List.getD_eq_getElem?_getD,
      List.getElem?_append_right hj]
    rcases Nat.lt_or_ge (j - l.length) k with hk | hk
    · simp [List.getElem?_replicate, hk]
    · rw [List.getElem?_eq_none (by simpa using hk)]
      rfl

lemma occupied_lt_length (nodes : List (Option NodeV)) (i : Nat)
    (h : occupied (nodes.getD i none) = true) : i < nodes.length := by
  by_contra hc
  push_neg at hc
  rw [List.getD_eq_default _ _ hc] at h
  simp [occupied] at h

lemma occupied_lt_currentSizeFrom (nodes : List (Option NodeV)) (n i : Nat)
    (hi : i < n) (hocc : occupied (nodes.getD i none) = true) :
    i + 1 ≤ currentSizeFrom nodes n := by
  induction n with
  | zero => omega
  | succ m ih =>
      rw [currentSizeFrom]
      by_cases hm : occupied (nodes.getD m none) = true
      · rw [if_pos hm]; omega
      · rw [if_neg hm]
        have him : i ≠ m := fun he => hm (he ▸ hocc)
        exact ih (by omega)

lemma currentSizeFrom_eq_zero (nodes : List (Option NodeV)) (n : Nat)
    (h : ∀ j, j < n → occupied (nodes.getD j none) = false) :
    currentSizeFrom nodes n = 0 := by
  induction n with
  | zero => rfl
  | succ m ih =>
      rw [currentSizeFrom,
        if_neg (by rw [h m (Nat.lt_succ_self m)]; exact Bool.false_ne_true)]
      exact ih fun j hj => h j (Nat.lt_succ_of_lt hj)

lemma currentSizeFrom_eq_of_top (nodes : List (Option NodeV)) (n i : Nat)
    (hi : i < n) (hocc : occupied (nodes.getD i none) = true)
    (htop : ∀ j, i < j → j < n → occupied (nodes.getD j none) = false) :
    currentSizeFrom nodes n = i + 1 := by
  induction n with
  | zero => omega
  | succ m ih =>
      rw [currentSizeFrom]
      by_cases he : i = m
      · subst he; rw [if_pos hocc]
      · have him : i < m := by omega
        rw [if_neg (by rw [htop m him (Nat.lt_succ_self m)]; exact Bool.false_ne_true)]
        exact ih him fun j hj hjm => htop j hj (Nat.lt_succ_of_lt hjm)

lemma occupied_lt_CurrentSize (c : ClusterRing) (i : Nat)
    (h : occupied (c.slot i) = true) : i < c.CurrentSize :=
  occupied_lt_currentSizeFrom c.nodes c.nodes.length i
    (occupied_lt_length c.nodes i h) h

lemma currentSize_nodes02 (ks dc s0 s2 : String) (es ns rf : Int) (h2 : s2 ≠ "") :
    ClusterRing.CurrentSize
      { keyspace := ks, dataCenter := dc,
        nodes := [some { id := 0, address := s0 }, none,
                  some { id := 2, address := s2 }],
        expectedSize := es, nextSize := ns, replicationFactor := rf } = 3 := by
  rw [ClusterRing.CurrentSize]
  show currentSizeFrom [some { id := 0, address := s0 }, none,
    some { id := 2, address := s2 }] 3 = 3
  rw [currentSizeFrom, if_pos (show occupied ([some { id := 0, address := s0 }, none,
      some { id := 2, address := s2 }].getD 2 none) = true from by
    show occupied (some { id := 2, address := s2 }) = true
    simp [occupied, h2])]

lemma freeList_eq_nil (c : ClusterRing) : (c.MissingAndFreeNodeIds).2 = [] := by
  apply List.filter_eq_nil_iff.mpr
  intro i _
  simp only [Bool.and_eq_true, decide_eq_true_eq, not_and]
  intro hocc
  have := occupied_lt_CurrentSize c i hocc
  omega

/-! ### Claim C2 -/

/-- Claim C2: `GetNode(index, options...)` applies each access-strategy
option in sequence to the `(index, replicaOffset)` pair, seeded with
`replicaOffset = 0` and the registry's slot count as the size context;
after transformation, an index outside `[0, len(registry))` or an absent
slot yields `(no node, 0, false)`, otherwise the node at the final index,
the final replica offset, and `true`. -/
theorem c2_theorem (c : ClusterRing) (index : Int) (options : List AccessOption) :
    c.GetNode index options = getNodeSpec c index options := by
  unfold ClusterRing.GetNode getNodeSpec applyOptions
  set p := options.foldl (fun p opt => opt p.1 (c.nodes.length : Int)) (index, 0) with hp
  by_cases h : p.1 < 0 ∨ (c.nodes.length : Int) ≤ p.1
  · rw [if_pos h, if_neg (by omega)]
  · rw [if_neg h, if_pos (by omega)]
    cases c.slot p.1.toNat <;> rfl

/-! ### Claim C1 -/

/-- A one-slot ring whose slot 0 holds a node with an empty client
address: present but unoccupied in the spec's sense. -/
def emptyAddrRing : ClusterRing :=
  { keyspace := "ks", dataCenter := "dc",
    nodes := [some { id := 0, address := "" }],
    expectedSize := 1, nextSize := 0, replicationFactor := 1 }

/-- Claim C1 is false on the code: `GetNode` only tests the slot for `nil`,
so a present node with an empty client address is returned with
`found = true`, not treated like an absent slot. -/
theorem c1_counterexample :
    emptyAddrRing.GetNode 0 [] = (some { id := 0, address := "" }, 0, true) ∧
    emptyAddrRing.GetNode 0 [] ≠ (none, 0, false) := by
  exact ⟨rfl, by decide⟩

/-- Claim C1 (amended): `GetNode(i)` with no options returns the slot's
node with `found = true` for every present slot at an in-range index, even
when the node's client address is empty; only an absent (`nil`) slot gives
not-found. -/
theorem c1_theorem (c : ClusterRing) (i : Int) (hi : 0 ≤ i) :
    (∀ n : NodeV, c.slot i.toNat = some n → c.GetNode i [] = (some n, 0, true)) ∧
    (c.slot i.toNat = none → c.GetNode i [] = (none, 0, false)) := by
  constructor
  · intro n hn
    have hlt : i.toNat < c.nodes.length := by
      by_contra hc
      push_neg at hc
      rw [ClusterRing.slot, List.getD_eq_default _ _ hc] at hn
      exact Option.noConfusion hn
    simp only [ClusterRing.GetNode, applyOptions, List.foldl_nil]
    rw [if_neg (by omega), hn]
  · intro hn
    simp only [ClusterRing.GetNode, applyOptions, List.foldl_nil]
    by_cases hr : i < 0 ∨ (c.nodes.length : Int) ≤ i
    · rw [if_pos hr]
    · rw [if_neg hr, hn]

/-- Witness for claim C1 on a concrete in-range present slot and a
concrete absent slot. -/
theorem c1_witness :
    (0 : Int) ≤ 0 ∧
    ClusterRing.GetNode
      { keyspace := "ks", dataCenter := "dc",
        nodes := [some { id := 0, address := "a" }, none],
        expectedSize := 2, nextSize := 0, replicationFactor := 1 } 0 []
      = (some { id := 0, address := "a" }, 0, true) ∧
    ClusterRing.GetNode
      { keyspace := "ks", dataCenter := "dc",
        nodes := [some { id := 0, address := "a" }, none],
        expectedSize := 2, nextSize := 0, replicationFactor := 1 } 1 []
      = (none, 0, false) :=
  ⟨by decide,
   (c1_theorem _ 0 (by decide)).1 { id := 0, address := "a" } rfl,
   (c1_theorem _ 1 (by decide)).2 rfl⟩

/-! ### Claim C9 -/

/-- Claim C9: `SetExpectedSize` and `SetReplicationFactor` silently ignore
zero or negative arguments and keep the stored value (in particular
`SetExpectedSize 5` then `SetExpectedSize 0` leaves 5), while `SetNextSize`
has no guard and stores any value, zero included. -/
theorem c9_theorem :
    (∀ (c : ClusterRing) (v : Int), v ≤ 0 → c.SetExpectedSize v = c) ∧
    (∀ (c : ClusterRing) (v : Int), 0 < v → (c.SetExpectedSize v).expectedSize = v) ∧
    (∀ (c : ClusterRing) (v : Int), v ≤ 0 → c.SetReplicationFactor v = c) ∧
    (∀ (c : ClusterRing) (v : Int), 0 < v →
      (c.SetReplicationFactor v).replicationFactor = v) ∧
    (∀ (c : ClusterRing) (v : Int), (c.SetNextSize v).nextSize = v) ∧
    (∀ c : ClusterRing, ((c.SetExpectedSize 5).SetExpectedSize 0).expectedSize = 5) := by
  refine ⟨fun c v hv => ?_, fun c v hv => ?_, fun c v hv => ?_, fun c v hv => ?_,
    fun c v => rfl, fun c => rfl⟩
  · unfold ClusterRing.SetExpectedSize
    rw [if_neg (by omega)]
  · unfold ClusterRing.SetExpectedSize
    rw [if_pos hv]
  · unfold ClusterRing.SetReplicationFactor
    rw [if_neg (by omega)]
  · unfold ClusterRing.SetReplicationFactor
    rw [if_pos hv]

/-- Witness for claim C9 at concrete setter arguments. -/
theorem c9_witness :
    ((-1 : Int) ≤ 0 ∧ (0 : Int) < 7) ∧
    emptyAddrRing.SetExpectedSize (-1) = emptyAddrRing ∧
    (emptyAddrRing.SetExpectedSize 7).expectedSize = 7 ∧
    emptyAddrRing.SetReplicationFactor 0 = emptyAddrRing ∧
    (emptyAddrRing.SetReplicationFactor 7).replicationFactor = 7 ∧
    (emptyAddrRing.SetNextSize 0).nextSize = 0 ∧
    ((emptyAddrRing.SetExpectedSize 5).SetExpectedSize 0).expectedSize = 5 :=
  ⟨⟨by decide, by decide⟩,
   c9_theorem.1 emptyAddrRing (-1) (by decide),
   c9_theorem.2.1 emptyAddrRing 7 (by decide),
   c9_theorem.2.2.1 emptyAddrRing 0 (by decide),
   c9_theorem.2.2.2.1 emptyAddrRing 7 (by decide),
   c9_theorem.2.2.2.2.1 emptyAddrRing 0,
   c9_theorem.2.2.2.2.2 emptyAddrRing⟩

/-! ### Claim C5 -/

/-- Claim C5: `CurrentSize()` is one plus the highest slot index holding a
node with a non-empty client address, `0` when no slot is occupied; holes
below the highest occupied index do not reduce it — a ring occupied exactly
at ids 0 and 2 has `CurrentSize() = 3`. -/
theorem c5_theorem :
    (∀ (c : ClusterRing) (i : Nat), occupied (c.slot i) = true →
      (∀ j : Nat, occupied (c.slot j) = true → j ≤ i) → c.CurrentSize = i + 1) ∧
    (∀ c : ClusterRing, (∀ j : Nat, occupied (c.slot j) = false) →
      c.CurrentSize = 0) ∧
    (∀ (ks dc s0 s2 : String) (es ns rf : Int), s0 ≠ "" → s2 ≠ "" →
      ClusterRing.CurrentSize
        { keyspace := ks, dataCenter := dc,
          nodes := [some { id := 0, address := s0 }, none,
                    some { id := 2, address := s2 }],
          expectedSize := es, nextSize := ns, replicationFactor := rf } = 3) := by
  refine ⟨fun c i hocc htop => ?_, fun c hnone => ?_,
    fun ks dc s0 s2 es ns rf h0 h2 => ?_⟩
  · apply currentSizeFrom_eq_of_top c.nodes c.nodes.length i
      (occupied_lt_length c.nodes i hocc) hocc
    intro j hij _
    cases hb : occupied (c.nodes.getD j none)
    · rfl
    · exact absurd (htop j hb) (by omega)
  · exact currentSizeFrom_eq_zero c.nodes c.nodes.length fun j _ => hnone j
  · exact currentSize_nodes02 ks dc s0 s2 es ns rf h2

/-- Witness for claim C5 at a concrete ring occupied at ids 0 and 2 and at
the empty ring. -/
theorem c5_witness :
    (occupied (ClusterRing.slot
      { keyspace := "ks", dataCenter := "dc",
        nodes := [some { id := 0, address := "a" }, none,
                  some { id := 2, address := "b" }],
        expectedSize := 3, nextSize := 0, replicationFactor := 1 } 2) = true ∧
     ClusterRing.CurrentSize
      { keyspace := "ks", dataCenter := "dc",
        nodes := [some { id := 0, address := "a" }, none,
                  some { id := 2, address := "b" }],
        expectedSize := 3, nextSize := 0, replicationFactor := 1 } = 3) ∧
    ClusterRing.CurrentSize (NewHashRing "ks" "dc" 3 1) = 0 ∧
    ("a" : String) ≠ "" :=
  ⟨⟨by decide,
    c5_theorem.1 _ 2 (by decide) (fun j hj => by
      have hlen := occupied_lt_length _ j hj
      simp only [List.length_cons, List.length_nil] at hlen
      omega)⟩,
   c5_theorem.2.1 _ (fun j => by simp [ClusterRing.slot, NewHashRing, occupied]),
   by decide⟩

/-! ### Claim C3 -/

/-- A ring whose occupied slots are exactly 0, 2 and 4. -/
def ringZeroTwoFour : ClusterRing :=
  { keyspace := "ks", dataCenter := "dc",
    nodes := [some { id := 0, address := "a" }, none,
              some { id := 2, address := "b" }, none,
              some { id := 4, address := "c" }],
    expectedSize := 3, nextSize := 0, replicationFactor := 1 }

/-- Claim C3 is false on the code: with occupied slots exactly 0, 2 and 4,
`CurrentSize()` is 5 (one past the highest occupied slot), not 3, and
`MissingAndFreeNodeIds()` returns missing = [1, 3] and free = [], not
missing = [1], free = [4]. -/
theorem c3_counterexample :
    ¬ (ringZeroTwoFour.CurrentSize = 3 ∧
       ringZeroTwoFour.MissingAndFreeNodeIds = ([1], [4])) := by
  decide

/-- Claim C3 (amended): for every ring whose registry holds nodes with
non-empty addresses exactly at slots 0, 2 and 4, `CurrentSize()` equals 5
and `MissingAndFreeNodeIds()` returns missing = [1, 3] and free = []. -/
theorem c3_theorem (ks dc s0 s2 s4 : String) (es ns rf : Int)
    (h0 : s0 ≠ "") (h2 : s2 ≠ "") (h4 : s4 ≠ "") :
    ClusterRing.CurrentSize
      { keyspace := ks, dataCenter := dc,
        nodes := [some { id := 0, address := s0 }, none,
                  some { id := 2, address := s2 }, none,
                  some { id := 4, address := s4 }],
        expectedSize := es, nextSize := ns, replicationFactor := rf } = 5 ∧
    ClusterRing.MissingAndFreeNodeIds
      { keyspace := ks, dataCenter := dc,
        nodes := [some { id := 0, address := s0 }, none,
                  some { id := 2, address := s2 }, none,
                  some { id := 4, address := s4 }],
        expectedSize := es, nextSize := ns, replicationFactor := rf }
      = ([1, 3], []) := by
  have hcs : ClusterRing.CurrentSize
      { keyspace := ks, dataCenter := dc,
        nodes := [some { id := 0, address := s0 }, none,
                  some { id := 2, address := s2 }, none,
                  some { id := 4, address := s4 }],
        expectedSize := es, nextSize := ns, replicationFactor := rf } = 5 := by
    rw [ClusterRing.CurrentSize]
    show currentSizeFrom [some { id := 0, address := s0 }, none,
      some { id := 2, address := s2 }, none, some { id := 4, address := s4 }] 5 = 5
    rw [currentSizeFrom, if_pos (show occupied ([some { id := 0, address := s0 }, none,
        some { id := 2, address := s2 }, none,
        some { id := 4, address := s4 }].getD 4 none) = true from by
      show occupied (some { id := 4, address := s4 }) = true
      simp [occupied, h4])]
  refine ⟨hcs, ?_⟩
  rw [ClusterRing.MissingAndFreeNodeIds]
  simp only [hcs]
  simp [ClusterRing.slot, List.range_succ, occupied, List.filter_cons, h0, h2, h4]

/-- Witness for claim C3 at concrete non-empty addresses. -/
theorem c3_witness :
    (("a" : String) ≠ "" ∧ ("b" : String) ≠ "" ∧ ("c" : String) ≠ "") ∧
    ringZeroTwoFour.CurrentSize = 5 ∧
    ringZeroTwoFour.MissingAndFreeNodeIds = ([1, 3], []) :=
  ⟨⟨by decide, by decide, by decide⟩,
   c3_theorem "ks" "dc" "a" "b" "c" 3 0 1 (by decide) (by decide) (by decide)⟩

/-! ### Claim C4 -/

/-- The scenario of claim C4: expected size 3, nodes at ids 0 and 2,
slot 1 absent, no active resize. -/
def ringZeroTwo : ClusterRing :=
  { keyspace := "ks", dataCenter := "dc",
    nodes := [some { id := 0, address := "a" }, none, some { id := 2, address := "b" }],
    expectedSize := 3, nextSize := 0, replicationFactor := 1 }

/-- Claim C4 is false on the code: in its scenario `CurrentSize()` is 3
(one past the highest occupied slot), equal to `expectedSize`, so the size
annotation renders as `size 3`, not `size 2->3`. -/
theorem c4_counterexample :
    ringZeroTwo.String = "[0 _ 2] size 3 (1 missing [1])" ∧
    ringZeroTwo.String ≠ "[0 _ 2] size 2->3 (1 missing [1])" := by
  constructor
  · rfl
  · decide

/-- Claim C4 (amended): a ring with `expectedSize = 3`, occupied nodes at
slot ids 0 and 2, slot 1 absent and `nextSize = 0` renders as
`[0 _ 2] size 3 (1 missing [1])`. -/
theorem c4_theorem (ks dc s0 s2 : String) (rf : Int) (h0 : s0 ≠ "") (h2 : s2 ≠ "") :
    ClusterRing.String
      { keyspace := ks, dataCenter := dc,
        nodes := [some { id := 0, address := s0 }, none,
                  some { id := 2, address := s2 }],
        expectedSize := 3, nextSize := 0, replicationFactor := rf }
      = "[0 _ 2] size 3 (1 missing [1])" := by
  have hcs : ClusterRing.CurrentSize
      { keyspace := ks, dataCenter := dc,
        nodes := [some { id := 0, address := s0 }, none,
                  some { id := 2, address := s2 }],
        expectedSize := 3, nextSize := 0, replicationFactor := rf } = 3 :=
    currentSize_nodes02 ks dc s0 s2 3 0 rf h2
  rw [ClusterRing.String]
  simp only [hcs]
  simp [slotPiece, sizeSuffix, missingFreeSuffix, ClusterRing.MissingAndFreeNodeIds,
    hcs, ClusterRing.slot, List.range_succ, occupied, List.filter_cons, h0, h2,
    goIntListRepr]
  rfl

/-- Witness for claim C4 at concrete non-empty addresses. -/
theorem c4_witness :
    (("a" : String) ≠ "" ∧ ("b" : String) ≠ "") ∧
    ringZeroTwo.String = "[0 _ 2] size 3 (1 missing [1])" :=
  ⟨⟨by decide, by decide⟩, c4_theorem "ks" "dc" "a" "b" 1 (by decide) (by decide)⟩

/-! ### Claim C7 -/

/-- Claim C7 is false on the code: `Remove` guards only `nodeId <
len(nodes)`, so a negative id on a non-empty registry reaches
`cluster.nodes[nodeId]` and panics (the `none` result of the embedding)
instead of returning no node. -/
theorem c7_counterexample :
    ringZeroTwo.Remove (-1) = none ∧
    ∀ prev state, ringZeroTwo.Remove (-1) ≠ some (prev, state) := by
  exact ⟨rfl, fun prev state h => Option.noConfusion h⟩

/-- Claim C7 (amended): `GetNode` is total on every integer index and
returns not-found for any out-of-range index, negatives included;
`Remove(id)` with `0 ≤ id < len(registry)` clears the slot and returns the
previous occupant, with `id ≥ len(registry)` returns no node without
change, but with a negative `id` and a non-empty registry it panics
(index out of range) instead of returning. -/
theorem c7_theorem :
    (∀ (c : ClusterRing) (i : Int), i < 0 ∨ (c.nodes.length : Int) ≤ i →
      c.GetNode i [] = (none, 0, false)) ∧
    (∀ (c : ClusterRing) (i : Int), 0 ≤ i → i < (c.nodes.length : Int) →
      c.Remove i = some (c.slot i.toNat,
        { c with nodes := c.nodes.set i.toNat none })) ∧
    (∀ (c : ClusterRing) (i : Int), (c.nodes.length : Int) ≤ i →
      c.Remove i = some (none, c)) ∧
    (∀ (c : ClusterRing) (i : Int), i < 0 → c.nodes ≠ [] →
      c.Remove i = none) := by
  refine ⟨fun c i hr => ?_, fun c i h0 hlen => ?_, fun c i hge => ?_,
    fun c i hneg hne => ?_⟩
  · simp only [ClusterRing.GetNode, applyOptions, List.foldl_nil]
    rw [if_pos hr]
  · rw [ClusterRing.Remove, if_pos hlen, if_pos h0]
  · rw [ClusterRing.Remove, if_neg (by omega)]
  · have hpos : 0 < c.nodes.length := List.length_pos.mpr hne
    rw [ClusterRing.Remove, if_pos (by omega), if_neg (by omega)]

/-- Witness for claim C7 at concrete indices on a concrete ring. -/
theorem c7_witness :
    ringZeroTwo.GetNode (-2) [] = (none, 0, false) ∧
    ringZeroTwo.GetNode 5 [] = (none, 0, false) ∧
    ringZeroTwo.Remove 1 = some (none,
      { ringZeroTwo with nodes := ringZeroTwo.nodes.set 1 none }) ∧
    ringZeroTwo.Remove 7 = some (none, ringZeroTwo) ∧
    ringZeroTwo.Remove (-3) = none :=
  ⟨c7_theorem.1 ringZeroTwo (-2) (by decide),
   c7_theorem.1 ringZeroTwo 5 (by decide),
   c7_theorem.2.1 ringZeroTwo 1 (by decide) (by decide),
   c7_theorem.2.2.1 ringZeroTwo 7 (by decide),
   c7_theorem.2.2.2 ringZeroTwo (-3) (by decide) (by decide)⟩

/-! ### Claim C8 -/

/-- Claim C8: `Add(n)` grows the registry to exactly `n.GetId()+1` when the
id is beyond the current length (preserving existing entries, new slots
absent), places `n` at its id overwriting any prior occupant, and leaves
every other slot unchanged; `Remove(id)` clears only slot `id`, keeping the
registry length and all other slots. -/
theorem c8_theorem :
    (∀ (c : ClusterRing) (n : NodeV), 0 ≤ n.id →
      ∃ c', c.Add n = some c' ∧
        c'.nodes.length = max c.nodes.length (n.id.toNat + 1) ∧
        c'.slot n.id.toNat = some n ∧
        (∀ j : Nat, j ≠ n.id.toNat → c'.slot j = c.slot j)) ∧
    (∀ (c : ClusterRing) (i : Int), 0 ≤ i → i < (c.nodes.length : Int) →
      ∃ c', c.Remove i = some (c.slot i.toNat, c') ∧
        c'.nodes.length = c.nodes.length ∧
        c'.slot i.toNat = none ∧
        (∀ j : Nat, j ≠ i.toNat → c'.slot j = c.slot j)) := by
  constructor
  · intro c n hid
    rw [ClusterRing.Add, if_pos hid]
    refine ⟨_, rfl, ?_, ?_, ?_⟩
    · by_cases hlen : c.nodes.length < n.id.toNat + 1
      · rw [if_pos hlen]
        simp only [List.length_set, List.length_append, List.length_replicate]
        omega
      · rw [if_neg hlen]
        simp only [List.length_set]
        omega
    · rw [ClusterRing.slot]
      apply getD_set_self
      by_cases hlen : c.nodes.length < n.id.toNat + 1
      · rw [if_pos hlen]
        simp only [List.length_append, List.length_replicate]
        omega
      · rw [if_neg hlen]
        omega
    · intro j hj
      rw [ClusterRing.slot, ClusterRing.slot, getD_set_ne _ _ _ _ _ (fun h => hj h.symm)]
      by_cases hlen : c.nodes.length < n.id.toNat + 1
      · rw [if_pos hlen, getD_append_replicate]
      · rw [if_neg hlen]
  · intro c i h0 hlen
    rw [ClusterRing.Remove, if_pos hlen, if_pos h0]
    refine ⟨_, rfl, List.length_set _ _ _, ?_, ?_⟩
    · rw [ClusterRing.slot]
      by_cases hin : i.toNat < c.nodes.length
      · exact getD_set_self _ _ _ _ hin
      · rw [List.getD_eq_default]
        simpa [List.length_set] using hin
    · intro j hj
      rw [ClusterRing.slot, ClusterRing.slot, getD_set_ne _ _ _ _ _ (fun h => hj h.symm)]

/-- Witness for claim C8: adding a node with id 4 to the two-node ring and
removing slot 2 from it, at concrete inputs. -/
theorem c8_witness :
    (∃ c', ringZeroTwo.Add { id := 4, address := "d" } = some c' ∧
      c'.nodes.length = max ringZeroTwo.nodes.length 5 ∧
      c'.slot 4 = some { id := 4, address := "d" } ∧
      (∀ j : Nat, j ≠ 4 → c'.slot j = ringZeroTwo.slot j)) ∧
    (∃ c', ringZeroTwo.Remove 2 = some (ringZeroTwo.slot 2, c') ∧
      c'.nodes.length = ringZeroTwo.nodes.length ∧
      c'.slot 2 = none ∧
      (∀ j : Nat, j ≠ 2 → c'.slot j = ringZeroTwo.slot j)) :=
  ⟨c8_theorem.1 ringZeroTwo { id := 4, address := "d" } (by decide),
   c8_theorem.2 ringZeroTwo 2 (by decide) (by decide)⟩

/-! ### Claim C10 -/

/-- Claim C10: on every ring state reachable via `NewHashRing`, `Add` and
`Remove`, `MissingAndFreeNodeIds()` has an empty free list: an occupied
slot index always lies below `CurrentSize()`, so the free category is never
populated.  (The underlying lemma `freeList_eq_nil` shows this for every
ring state whatsoever.) -/
theorem c10_theorem (c : ClusterRing) (h : Reachable c) :
    (c.MissingAndFreeNodeIds).2 = [] :=
  freeList_eq_nil c

/-- Witness for claim C10 at the freshly constructed ring. -/
theorem c10_witness : ((NewHashRing "ks" "dc" 3 2).MissingAndFreeNodeIds).2 = [] :=
  c10_theorem (NewHashRing "ks" "dc" 3 2) (Reachable.new "ks" "dc" 3 2)

/-! ### Claim C6 -/

lemma jumpLoop_range (n : Int) (fuel : Nat) :
    ∀ (b j : Int) (key : Nat), 0 ≤ b → b < n → 0 ≤ j →
      0 ≤ jumpLoop n fuel b j key ∧ jumpLoop n fuel b j key < n := by
  induction fuel with
  | zero => intro b j key hb hbn _; rw [jumpLoop]; exact ⟨hb, hbn⟩
  | succ fuel ih =>
      intro b j key hb hbn hj
      rw [jumpLoop]
      by_cases hjn : j < n
      · rw [if_pos hjn]
        apply ih j _ _ hj hjn
        positivity
      · rw [if_neg hjn]
        exact ⟨hb, hbn⟩

/-- Claim C6: for every bucket count `count > 0` and every key hash,
`FindBucketGivenSize(h, count)` lands in `[0, count)`, and for every ring
`FindBucket(h)` equals `FindBucketGivenSize(h, expectedSize)` — the
jump-hash bucket under the configured expected size, independent of slot
occupancy. -/
theorem c6_theorem :
    (∀ (c : ClusterRing) (keyHash : Nat) (count : Int), 0 < count →
      0 ≤ c.FindBucketGivenSize keyHash count ∧
        c.FindBucketGivenSize keyHash count < count) ∧
    (∀ (c : ClusterRing) (keyHash : Nat),
      c.FindBucket keyHash = c.FindBucketGivenSize keyHash c.ExpectedSize) := by
  constructor
  · intro c keyHash count hpos
    rw [ClusterRing.FindBucketGivenSize, jumpHash, jumpLoop, if_pos hpos]
    apply jumpLoop_range count _ 0 _ _ le_rfl hpos
    positivity
  · intro c keyHash
    rfl

/-- Witness for claim C6 at a concrete key hash and bucket count. -/
theorem c6_witness :
    (0 : Int) < 10 ∧
    (0 ≤ ringZeroTwo.FindBucketGivenSize 123456789 10 ∧
      ringZeroTwo.FindBucketGivenSize 123456789 10 < 10) ∧
    ringZeroTwo.FindBucket 123456789
      = ringZeroTwo.FindBucketGivenSize 123456789 ringZeroTwo.ExpectedSize :=
  ⟨by decide,
   c6_theorem.1 ringZeroTwo 123456789 10 (by decide),
   c6_theorem.2 ringZeroTwo 123456789⟩
